import Mathlib

/-!
Verification development for `main.py` of records-to-docx: a command-line
tool that parses `key=value` lines into a context mapping, computes a safe
output filename, and renders a DOCX template.

The Python source is shallowly embedded below:
* `parse_kv_file` / `processLine` embed the line-by-line KV parser
  (`main.py`, `parse_kv_file`), with the Python `dict` modelled as an
  insertion-ordered association list (`dictInsert` updates in place,
  appends when new) and warnings collected in a list instead of printed.
* `safe_filename` embeds the filename sanitizer (`main.py`,
  `safe_filename`).  The Unicode-aware character classes of Python's
  `re` (`\w`, `\s` with `re.UNICODE`) and of `str.strip` are modelled by
  their ASCII fragments `isWordChar` and `isSpaceChar`; every input the
  claims evaluate is ASCII.
* `runMain` embeds the control flow of `main` over an abstract world
  (does the template exist, does the KV file exist, does the renderer
  succeed), recording the exit code and whether the KV file was read.
-/

/-- ASCII fragment of the whitespace class used by Python's `str.strip`
and by `re`'s `\s`: space, tab, newline, carriage return, vertical tab,
form feed. -/
def isSpaceChar (c : Char) : Bool :=
  c == ' ' || c == '\t' || c == '\n' || c == '\r' || c == '\x0b' || c == '\x0c'

/-- ASCII fragment of Python's Unicode word-character class `\w`:
letters, digits and the underscore. -/
def isWordChar (c : Char) : Bool :=
  c.isAlpha || c.isDigit || c == '_'

/-- The characters kept by `safe_filename`'s first substitution
(`re.sub(r"[^\w\s-]", "", s)`): word characters, whitespace, hyphen. -/
def keepChar (c : Char) : Bool :=
  isWordChar c || isSpaceChar c || c == '-'

/-- Python `str.strip()`: drop leading and trailing whitespace. -/
def stripList (l : List Char) : List Char :=
  ((l.dropWhile isSpaceChar).reverse.dropWhile isSpaceChar).reverse

/-- `re.sub(r"\s+", "_", s)`: each maximal run of whitespace becomes one
underscore.  `inRun` records whether the previous character was part of a
whitespace run already replaced. -/
def collapseWsAux (inRun : Bool) : List Char → List Char
  | [] => []
  | c :: cs =>
    if isSpaceChar c then
      (if inRun then [] else ['_']) ++ collapseWsAux true cs
    else
      c :: collapseWsAux false cs

/-- `re.sub(r"\s+", "_", s)` on a whole string. -/
def collapseWs (l : List Char) : List Char :=
  collapseWsAux false l

/-- The sanitizer pipeline before truncation: strip, remove characters
outside `keepChar`, collapse whitespace runs to underscores
(`main.py` lines 55-57). -/
def sanCore (s : String) : List Char :=
  collapseWs ((stripList s.toList).filter keepChar)

/-- `safe_filename(s, maxlen=120)` from `main.py`: `str(s or "")` coerces
an absent value to the empty string; then strip, filter, collapse,
truncate to `maxlen`, and fall back to `"output"` when empty. -/
def safe_filename (s : Option String) (maxlen : Nat := 120) : String :=
  let t := (sanCore (s.getD "")).take maxlen
  if t.isEmpty then "output" else String.mk t

/-- The single-quote character (code point 39). -/
def squote : Char := Char.ofNat 39

/-- Surrounding-quote removal from `parse_kv_file`: when the trimmed value
has length at least 2 and its first and last characters are the same
single or double quote, `val[1:-1]`. -/
def stripQuotes (v : List Char) : List Char :=
  if 2 ≤ v.length ∧ v.head? = v.getLast? ∧ (v.head? = some squote ∨ v.head? = some '"') then
    (v.drop 1).dropLast
  else v

/-- Python `dict` assignment `data[key] = val` on an insertion-ordered
association list: update in place when the key is present, append
otherwise. -/
def dictInsert (k v : String) : List (String × String) → List (String × String)
  | [] => [(k, v)]
  | (k', v') :: rest =>
    if k' = k then (k, v) :: rest else (k', v') :: dictInsert k v rest

/-- Python `dict.get`: the value stored at `k`, if any. -/
def dictGet (k : String) : List (String × String) → Option String
  | [] => none
  | (k', v') :: rest => if k' = k then some v' else dictGet k rest

/-- Parser state: the accumulated mapping and the warnings emitted to the
diagnostic stream, each as (line number, stripped line text). -/
abbrev ParseSt := List (String × String) × List (Nat × String)

/-- One iteration of the loop in `parse_kv_file` (`main.py` lines 36-50):
strip the raw line; skip it when blank or a `#` comment; warn and skip
when it has no `=`; otherwise split at the first `=`, trim key and value,
unquote the value, and store the pair. -/
def processLine (st : ParseSt) (lineno : Nat) (raw : List Char) : ParseSt :=
  let line := stripList raw
  if line.isEmpty || line.head? == some '#' then st
  else if !(line.contains '=') then (st.1, st.2 ++ [(lineno, String.mk line)])
  else
    (dictInsert (String.mk (stripList (line.takeWhile (fun c => c != '='))))
        (String.mk (stripQuotes (stripList ((line.dropWhile (fun c => c != '=')).drop 1))))
        st.1,
     st.2)

/-- The loop of `parse_kv_file` over the file's lines, numbered from 1. -/
def parseLinesAux (lineno : Nat) (st : ParseSt) : List (List Char) → ParseSt
  | [] => st
  | l :: ls => parseLinesAux (lineno + 1) (processLine st lineno l) ls

/-- Split file content at newline characters. -/
def splitLinesAux (cur : List Char) : List Char → List (List Char)
  | [] => [cur.reverse]
  | c :: cs =>
    if c == '\n' then cur.reverse :: splitLinesAux [] cs
    else splitLinesAux (c :: cur) cs

/-- Split file content at newline characters (top level). -/
def splitLines (l : List Char) : List (List Char) :=
  splitLinesAux [] l

/-- `parse_kv_file` applied to the text of an existing file: the mapping
and the warnings. -/
def parseContent (content : String) : ParseSt :=
  parseLinesAux 1 ([], []) (splitLines content.toList)

/-- `parse_kv_file(path)`: raises `FileNotFoundError` when the path does
not exist, otherwise parses the file's content (`main.py` lines 32-51). -/
def parse_kv_file (fileExists : Bool) (content : String) : Except String ParseSt :=
  if !fileExists then Except.error "KV file not found"
  else Except.ok (parseContent content)

/-- The pair a line contributes to the mapping, when it contributes one;
`none` for skipped lines (blank, comment, or no `=`). -/
def lineEntry (raw : List Char) : Option (String × String) :=
  let line := stripList raw
  if line.isEmpty || line.head? == some '#' then none
  else if !(line.contains '=') then none
  else
    some (String.mk (stripList (line.takeWhile (fun c => c != '='))),
          String.mk (stripQuotes (stripList ((line.dropWhile (fun c => c != '=')).drop 1))))

/-- The mapping-only effect of one parser iteration. -/
def dataStep (d : List (String × String)) (raw : List Char) : List (String × String) :=
  match lineEntry raw with
  | none => d
  | some (k, v) => dictInsert k v d

/-- Python's `a or b` on `ctx.get(...)` results: `None` and the empty
string are falsy, so the right operand is taken for both. -/
def orElseStr (a : Option String) (b : String) : String :=
  match a with
  | some v => if v = "" then b else v
  | none => b

/-- The candidate expression of `main.py` line 96:
`ctx.get("FIRSTNAME") or ctx.get("name") or ctx.get("Name") or
ctx.get("FULLNAME") or ctx.get("FULL_NAME") or ""`. -/
def nameCandidate (ctx : List (String × String)) : String :=
  orElseStr (dictGet "FIRSTNAME" ctx)
    (orElseStr (dictGet "name" ctx)
      (orElseStr (dictGet "Name" ctx)
        (orElseStr (dictGet "FULLNAME" ctx)
          (orElseStr (dictGet "FULL_NAME" ctx) ""))))

/-- Automatic output naming (`main.py` lines 96-98):
`base = safe_filename(candidate) if candidate else "document"` followed by
appending `.docx`. -/
def autoName (ctx : List (String × String)) : String :=
  let candidate := nameCandidate ctx
  let base := if candidate = "" then "document" else safe_filename (some candidate)
  base ++ ".docx"

/-- Outcome of a run of `main`: a `sys.exit` code, or success with the
generated file's name. -/
inductive RunResult where
  | exited : Nat → RunResult
  | generated : String → RunResult
deriving DecidableEq

/-- What a run of `main` did: whether the KV file was read (opened or
checked for existence by `parse_kv_file`), and how the run ended. -/
structure MainObs where
  kvRead : Bool
  result : RunResult
deriving DecidableEq

/-- Control flow of `main` (`main.py` lines 78-107) over an abstract
world: `tplExists` is the template-existence check, `kvExists` whether
`parse_kv_file` finds the KV file (its only failure in this model;
any read failure follows the same `except` branch), `genOk` whether
`generate_doc` succeeds.  The missing-template check runs before the KV
file is touched; parse failure exits 3; the output name is the `--name`
argument when truthy, else the automatic name; generation failure
exits 4. -/
def runMain (nameArg : Option String) (tplExists kvExists : Bool)
    (kvContent : String) (genOk : Bool) : MainObs :=
  if !tplExists then { kvRead := false, result := RunResult.exited 2 }
  else
    match parse_kv_file kvExists kvContent with
    | Except.error _ => { kvRead := true, result := RunResult.exited 3 }
    | Except.ok (ctx, _) =>
      let outName :=
        match nameArg with
        | some n => if n = "" then autoName ctx else n
        | none => autoName ctx
      if genOk then { kvRead := true, result := RunResult.generated outName }
      else { kvRead := true, result := RunResult.exited 4 }

/-! ### Helper lemmas -/

theorem processLine_fst (st : ParseSt) (n : Nat) (l : List Char) :
    (processLine st n l).1 = dataStep st.1 l := by
  by_cases h1 : ((stripList l).isEmpty || (stripList l).head? == some '#') = true
  · simp [processLine, dataStep, lineEntry, h1]
  · by_cases h2 : '=' ∈ stripList l
    · simp [processLine, dataStep, lineEntry, h1, h2]
    · simp [processLine, dataStep, lineEntry, h1, h2]

theorem parseLinesAux_fst (ls : List (List Char)) : ∀ (n : Nat) (st : ParseSt),
    (parseLinesAux n st ls).1 = ls.foldl dataStep st.1 := by
  induction ls with
  | nil => intro n st; rfl
  | cons l ls ih =>
    intro n st
    simp only [parseLinesAux, List.foldl_cons]
    rw [ih, processLine_fst]

theorem dictGet_insert_self (k v : String) (d : List (String × String)) :
    dictGet k (dictInsert k v d) = some v := by
  induction d with
  | nil => simp [dictInsert, dictGet]
  | cons p rest ih =>
    obtain ⟨k', v'⟩ := p
    by_cases h : k' = k
    · simp [dictInsert, dictGet, h]
    · simp [dictInsert, dictGet, h, ih]

theorem dictGet_insert_ne (k k' v' : String) (d : List (String × String)) (h : k' ≠ k) :
    dictGet k (dictInsert k' v' d) = dictGet k d := by
  induction d with
  | nil => simp [dictInsert, dictGet, h]
  | cons p rest ih =>
    obtain ⟨k'', v''⟩ := p
    by_cases h2 : k'' = k'
    · subst h2; simp [dictInsert, dictGet, h]
    · simp [dictInsert, dictGet, h2, ih]

theorem foldl_dataStep_other (k : String) (ys : List (List Char)) : ∀ d : List (String × String),
    (∀ l ∈ ys, (lineEntry l).map Prod.fst ≠ some k) →
    dictGet k (ys.foldl dataStep d) = dictGet k d := by
  induction ys with
  | nil => intro d _; rfl
  | cons l ys ih =>
    intro d h
    simp only [List.foldl_cons]
    rw [ih _ (fun l' hl' => h l' (List.mem_cons_of_mem _ hl'))]
    have hl := h l (List.mem_cons_self _ _)
    cases he : lineEntry l with
    | none => simp [dataStep, he]
    | some p =>
      obtain ⟨k', v'⟩ := p
      rw [he] at hl
      simp only [Option.map_some'] at hl
      have hk : k' ≠ k := by
        intro hkk
        exact hl (by rw [hkk])
      simp [dataStep, he, dictGet_insert_ne k k' v' d hk]

theorem collapseWsAux_good (l : List Char) : ∀ inRun : Bool,
    (∀ c ∈ l, keepChar c = true) →
    ∀ c ∈ collapseWsAux inRun l, ((isWordChar c || c == '-') && !isSpaceChar c) = true := by
  induction l with
  | nil => intro inRun _ c hc; simp [collapseWsAux] at hc
  | cons a as ih =>
    intro inRun h c hc
    simp only [collapseWsAux] at hc
    by_cases ha : isSpaceChar a = true
    · rw [if_pos ha] at hc
      rcases List.mem_append.1 hc with h1 | h2
      · cases inRun with
        | true => simp at h1
        | false =>
          simp only [if_neg Bool.false_ne_true, List.mem_singleton] at h1
          subst h1; decide
      · exact ih true (fun c hc => h c (List.mem_cons_of_mem _ hc)) c h2
    · rw [if_neg ha] at hc
      rcases List.mem_cons.1 hc with h1 | h2
      · subst h1
        have hk := h c (List.mem_cons_self _ _)
        simp only [keepChar, Bool.or_eq_true] at hk
        have hw : (isWordChar c || c == '-') = true := by
          rcases hk with (hk | hk) | hk
          · simp [hk]
          · exact absurd hk ha
          · simp [hk]
        simp [hw, Bool.eq_false_iff.2 ha]
      · exact ih false (fun c hc => h c (List.mem_cons_of_mem _ hc)) c h2

theorem sanCore_good (s : String) :
    ∀ c ∈ sanCore s, ((isWordChar c || c == '-') && !isSpaceChar c) = true := by
  intro c hc
  refine collapseWsAux_good ((stripList s.toList).filter keepChar) false ?_ c hc
  intro c hc
  exact (List.mem_filter.1 hc).2

/-! ### Claims -/

/-- C2: `safe_filename` applies, in order: trim surrounding whitespace,
removal of every character that is not a word character, whitespace or a
hyphen, replacement of each maximal whitespace run by a single
underscore, truncation to the maximum length (default 120), and the
fallback `"output"` when the result is then empty; an absent input is
treated as the empty string.  In particular `"John Doe!!"` sanitizes to
`"John_Doe"` and the empty or absent input to `"output"`. -/
theorem safe_filename_pipeline :
    (∀ (s : String) (maxlen : Nat),
      safe_filename (some s) maxlen =
        if ((collapseWs ((stripList s.toList).filter keepChar)).take maxlen).isEmpty
        then "output"
        else String.mk ((collapseWs ((stripList s.toList).filter keepChar)).take maxlen)) ∧
    (∀ maxlen : Nat, safe_filename none maxlen = safe_filename (some "") maxlen) ∧
    safe_filename (some "John Doe!!") = "John_Doe" ∧
    safe_filename (some "") = "output" ∧
    safe_filename none = "output" :=
  ⟨fun _ _ => rfl, fun _ => rfl, by decide, by decide, by decide⟩

/-- C6: parsing the five-line input `A=1\nB=2\n# comment\n\nC=3` yields
exactly the mapping A↦1, B↦2, C↦3 with no warnings; a line that is blank
after stripping, or whose first non-whitespace character is `#`, leaves
the parser state unchanged. -/
theorem parse_example_and_skips :
    parseContent "A=1\nB=2\n# comment\n\nC=3" = ([("A", "1"), ("B", "2"), ("C", "3")], []) ∧
    (∀ (st : ParseSt) (n : Nat) (l : List Char),
      stripList l = [] → processLine st n l = st) ∧
    (∀ (st : ParseSt) (n : Nat) (l : List Char),
      (stripList l).head? = some '#' → processLine st n l = st) := by
  refine ⟨by decide, ?_, ?_⟩
  · intro st n l h
    simp [processLine, h]
  · intro st n l h
    simp [processLine, h]

/-- C3: a line that is not skipped (non-blank after stripping, not a
comment, containing `=`) maps the trimmed text before the first `=` to
the trimmed text after it, with one outer pair of matching single or
double quotes removed by `stripQuotes`; in particular
`KEY="quoted value"` parses to the value `quoted value` and `KEY='x'`
(single quotes) to `x`. -/
theorem parse_valid_line_spec :
    (∀ (st : ParseSt) (n : Nat) (l : List Char),
      stripList l ≠ [] →
      (stripList l).head? ≠ some '#' →
      '=' ∈ stripList l →
      processLine st n l =
        (dictInsert (String.mk (stripList ((stripList l).takeWhile (fun c => c != '='))))
            (String.mk (stripQuotes (stripList (((stripList l).dropWhile (fun c => c != '=')).drop 1))))
            st.1,
         st.2)) ∧
    parseContent "KEY=\"quoted value\"" = ([("KEY", "quoted value")], []) ∧
    parseContent (String.mk ['K', 'E', 'Y', '=', squote, 'x', squote]) = ([("KEY", "x")], []) := by
  refine ⟨?_, by decide, by decide⟩
  intro st n l h1 h2 h3
  simp [processLine, h1, h2, h3]

/-- C10: for every input (present or absent) and every maximum length,
the sanitizer returns a non-empty string each of whose characters is a
word character or a hyphen, and none of whose characters is
whitespace. -/
theorem safe_filename_always_safe (s : Option String) (maxlen : Nat) :
    0 < (safe_filename s maxlen).length ∧
    ∀ c ∈ (safe_filename s maxlen).toList,
      ((isWordChar c || c == '-') && !isSpaceChar c) = true := by
  have hgood := sanCore_good (s.getD "")
  by_cases he : ((sanCore (s.getD "")).take maxlen).isEmpty = true
  · have hout : safe_filename s maxlen = "output" := by
      simp [safe_filename, he]
    rw [hout]
    refine ⟨by decide, ?_⟩
    intro c hc
    have : c ∈ ['o', 'u', 't', 'p', 'u', 't'] := hc
    simp only [List.mem_cons, List.not_mem_nil, or_false] at this
    rcases this with rfl | rfl | rfl | rfl | rfl | rfl <;> decide
  · have hmk : safe_filename s maxlen = String.mk ((sanCore (s.getD "")).take maxlen) := by
      simp [safe_filename, he]
    rw [hmk]
    constructor
    · rcases ht : (sanCore (s.getD "")).take maxlen with _ | ⟨a, as⟩
      · rw [ht] at he; simp at he
      · exact Nat.succ_pos _
    · intro c hc
      have hc' : c ∈ (sanCore (s.getD "")).take maxlen := hc
      exact hgood c (List.mem_of_mem_take hc')

/-- C5 (amended): when the trimmed, filtered, whitespace-collapsed form
of the input is longer than a positive maximum length, the sanitizer's
result has length exactly that maximum length; truncation is applied
before the empty-result fallback, so with maximum length 0 every input
yields `"output"`. -/
theorem safe_filename_truncates :
    (∀ (s : String) (maxlen : Nat), 0 < maxlen → maxlen < (sanCore s).length →
      (safe_filename (some s) maxlen).length = maxlen) ∧
    (∀ s : String, safe_filename (some s) 0 = "output") := by
  constructor
  · intro s maxlen hpos hlong
    have hlen : ((sanCore s).take maxlen).length = maxlen := by
      rw [List.length_take]
      omega
    have hne : ((sanCore s).take maxlen).isEmpty = false := by
      rcases ht : (sanCore s).take maxlen with _ | _
      · rw [ht] at hlen
        simp at hlen
        omega
      · rfl
    have hval : safe_filename (some s) maxlen = String.mk ((sanCore s).take maxlen) := by
      simp [safe_filename, hne]
    rw [hval]
    exact hlen
  · intro s
    rfl

set_option maxRecDepth 4000 in
/-- Witness for `safe_filename_truncates`: a 130-character input of `a`s
sanitizes, under the default maximum length 120, to a string of length
exactly 120. -/
theorem safe_filename_truncates_witness :
    (safe_filename (some (String.mk (List.replicate 130 'a'))) 120).length = 120 :=
  safe_filename_truncates.1 (String.mk (List.replicate 130 'a')) 120 (by decide) (by decide)

set_option maxRecDepth 4000 in
/-- C5 counterexample: the 122-character input `a` followed by 121 `!`s
is longer than the default maximum length 120, yet its sanitization is
`"a"`, of length 1, not 120: unsafe characters are removed before
truncation, so an input longer than the maximum need not truncate to
exactly the maximum. -/
theorem safe_filename_truncates_cex :
    (String.mk ('a' :: List.replicate 121 '!')).length = 122 ∧
    safe_filename (some (String.mk ('a' :: List.replicate 121 '!'))) = "a" ∧
    ("a" : String).length = 1 :=
  ⟨by decide, by decide, by decide⟩

/-- C1 (amended): with no explicit output name, the candidate is the
first non-empty value among the context entries `FIRSTNAME`, `name`,
`Name`, `FULLNAME`, `FULL_NAME`, in that order; when such a candidate
exists the output name is its sanitization with `.docx` appended, and
when every one of these keys is absent or maps to the empty string the
output name is `document.docx`.  In particular a context holding only
`LASTNAME=Smith` gives `document.docx` and one holding `FIRSTNAME=Anna`
gives `Anna.docx`. -/
theorem autoName_spec :
    (∀ ctx : List (String × String),
      nameCandidate ctx = "" → autoName ctx = "document.docx") ∧
    (∀ ctx : List (String × String), nameCandidate ctx ≠ "" →
      autoName ctx = safe_filename (some (nameCandidate ctx)) ++ ".docx") ∧
    (∀ (ctx : List (String × String)) (v : String),
      dictGet "FIRSTNAME" ctx = some v → v ≠ "" →
      autoName ctx = safe_filename (some v) ++ ".docx") ∧
    (∀ ctx : List (String × String),
      (∀ k ∈ ["FIRSTNAME", "name", "Name", "FULLNAME", "FULL_NAME"],
        dictGet k ctx = none ∨ dictGet k ctx = some "") →
      autoName ctx = "document.docx") ∧
    autoName [("LASTNAME", "Smith")] = "document.docx" ∧
    autoName [("FIRSTNAME", "Anna")] = "Anna.docx" := by
  refine ⟨?_, ?_, ?_, ?_, by decide, by decide⟩
  · intro ctx h
    simp [autoName, h]
  · intro ctx h
    simp [autoName, h]
  · intro ctx v hv hne
    have hc : nameCandidate ctx = v := by
      simp [nameCandidate, orElseStr, hv, hne]
    simp [autoName, hc, hne]
  · intro ctx h
    have h1 := h "FIRSTNAME" (by simp)
    have h2 := h "name" (by simp)
    have h3 := h "Name" (by simp)
    have h4 := h "FULLNAME" (by simp)
    have h5 := h "FULL_NAME" (by simp)
    have hc : nameCandidate ctx = "" := by
      rcases h1 with h1 | h1 <;> rcases h2 with h2 | h2 <;> rcases h3 with h3 | h3 <;>
        rcases h4 with h4 | h4 <;> rcases h5 with h5 | h5 <;>
        simp [nameCandidate, orElseStr, h1, h2, h3, h4, h5]
    simp [autoName, hc]

/-- C1 counterexample: the context mapping `FIRSTNAME` to the empty
string does contain a candidate key, yet the automatic output name is
`document.docx`: Python's `or` chain treats an empty value like an
absent key, so `document.docx` does not occur exactly when no candidate
key exists. -/
theorem autoName_cex :
    dictGet "FIRSTNAME" [("FIRSTNAME", "")] = some "" ∧
    autoName [("FIRSTNAME", "")] = "document.docx" :=
  ⟨by decide, by decide⟩

/-- C4: the three fatal error kinds exit with pairwise-distinct non-zero
codes — 2 for a missing template, 3 for a KV-file read failure
(including the not-found error raised when the KV file does not exist),
4 for a document-generation failure — and the missing-template check
precedes the KV read, so when the template is absent the run exits
without reading the KV file. -/
theorem main_exit_codes :
    (∀ (na : Option String) (kvE : Bool) (kvC : String) (g : Bool),
      runMain na false kvE kvC g = { kvRead := false, result := RunResult.exited 2 }) ∧
    (∀ (na : Option String) (kvC : String) (g : Bool),
      runMain na true false kvC g = { kvRead := true, result := RunResult.exited 3 }) ∧
    (∀ (na : Option String) (kvC : String),
      runMain na true true kvC false = { kvRead := true, result := RunResult.exited 4 }) ∧
    (decide (RunResult.exited 2 = RunResult.exited 0) = false ∧
      decide (RunResult.exited 3 = RunResult.exited 0) = false ∧
      decide (RunResult.exited 4 = RunResult.exited 0) = false ∧
      decide (RunResult.exited 2 = RunResult.exited 3) = false ∧
      decide (RunResult.exited 2 = RunResult.exited 4) = false ∧
      decide (RunResult.exited 3 = RunResult.exited 4) = false) :=
  ⟨fun _ _ _ _ => rfl, fun _ _ _ => rfl, fun _ _ => rfl, by decide⟩

/-- C7: a line that after stripping is non-empty, is not a comment and
contains no `=` character adds a warning carrying its line number and
text to the diagnostic list, leaves the mapping untouched, and parsing
does not fail: the mapping parsed from any line list containing such a
line equals the mapping parsed from the list with the line removed. -/
theorem invalid_line_warns :
    (∀ (st : ParseSt) (n : Nat) (l : List Char),
      stripList l ≠ [] →
      (stripList l).head? ≠ some '#' →
      '=' ∉ stripList l →
      processLine st n l = (st.1, st.2 ++ [(n, String.mk (stripList l))])) ∧
    (∀ (xs ys : List (List Char)) (l : List Char),
      stripList l ≠ [] →
      (stripList l).head? ≠ some '#' →
      '=' ∉ stripList l →
      (parseLinesAux 1 ([], []) (xs ++ l :: ys)).1 =
        (parseLinesAux 1 ([], []) (xs ++ ys)).1) := by
  have hnone : ∀ l : List Char, stripList l ≠ [] → (stripList l).head? ≠ some '#' →
      '=' ∉ stripList l → lineEntry l = none := by
    intro l h1 h2 h3
    simp [lineEntry, h1, h2, h3]
  constructor
  · intro st n l h1 h2 h3
    simp [processLine, h1, h2, h3]
  · intro xs ys l h1 h2 h3
    rw [parseLinesAux_fst, parseLinesAux_fst, List.foldl_append, List.foldl_append,
      List.foldl_cons]
    rw [show dataStep (xs.foldl dataStep (([], []) : ParseSt).1) l
          = xs.foldl dataStep (([], []) : ParseSt).1 from by simp [dataStep, hnone l h1 h2 h3]]

/-- C8: duplicate keys are not an error, and the last valid line bearing
a given key determines its value: when no later line contributes that
key, the parsed mapping assigns that line's value to it.  Keys are
case-sensitive: `KEY` and `key` are distinct entries, while a repeated
`KEY` silently overwrites. -/
theorem duplicate_keys_last_wins :
    (∀ (xs ys : List (List Char)) (l : List Char) (k v : String),
      lineEntry l = some (k, v) →
      (∀ l' ∈ ys, (lineEntry l').map Prod.fst ≠ some k) →
      dictGet k (parseLinesAux 1 ([], []) (xs ++ l :: ys)).1 = some v) ∧
    parseContent "KEY=a\nKEY=b" = ([("KEY", "b")], []) ∧
    parseContent "KEY=a\nkey=b" = ([("KEY", "a"), ("key", "b")], []) := by
  refine ⟨?_, by decide, by decide⟩
  intro xs ys l k v he hys
  rw [parseLinesAux_fst, List.foldl_append, List.foldl_cons]
  rw [foldl_dataStep_other k ys _ hys]
  simp [dataStep, he, dictGet_insert_self]

/-- C9: a line whose stripped form begins with `=` is accepted with no
warning: the parser adds the entry whose key is the empty string and
whose value is the trimmed, unquoted text after the `=`; in particular
`=hello` parses to the single entry mapping `""` to `hello`. -/
theorem empty_key_accepted :
    (∀ (st : ParseSt) (n : Nat) (l : List Char),
      (stripList l).head? = some '=' →
      processLine st n l =
        (dictInsert "" (String.mk (stripQuotes (stripList ((stripList l).drop 1)))) st.1,
         st.2)) ∧
    parseContent "=hello" = ([("", "hello")], []) := by
  refine ⟨?_, by decide⟩
  intro st n l h
  rcases ht : stripList l with _ | ⟨a, t⟩
  · rw [ht] at h
    simp at h
  · rw [ht] at h
    simp only [List.head?_cons, Option.some.injEq] at h
    subst h
    simp only [processLine]
    rw [ht]
    rfl

/-- Witness for `autoName_spec`: the context holding `FIRSTNAME=Anna`
names the output from the sanitized candidate value. -/
theorem autoName_spec_witness :
    autoName [("FIRSTNAME", "Anna")] = safe_filename (some "Anna") ++ ".docx" :=
  autoName_spec.2.2.1 [("FIRSTNAME", "Anna")] "Anna" (by decide) (by decide)

/-- Witness for `parse_valid_line_spec`: the valid line `K=v` stores the
pair `(K, v)`. -/
theorem parse_valid_line_witness :
    processLine (([], []) : ParseSt) 1 ("K=v".toList) = ([("K", "v")], []) := by
  have h := parse_valid_line_spec.1 ([], []) 1 ("K=v".toList) (by decide) (by decide) (by decide)
  rw [h]
  decide

/-- Witness for `parse_example_and_skips`: a whitespace-only line and a
comment line both leave the parser state unchanged. -/
theorem parse_example_witness :
    processLine (([], []) : ParseSt) 3 ("   ".toList) = ([], []) ∧
    processLine (([], []) : ParseSt) 4 ("# note".toList) = ([], []) :=
  ⟨parse_example_and_skips.2.1 ([], []) 3 ("   ".toList) (by decide),
   parse_example_and_skips.2.2 ([], []) 4 ("# note".toList) (by decide)⟩

/-- Witness for `invalid_line_warns`: the `=`-less line `bad line` is
recorded as a warning, and its presence between two valid lines does not
change the parsed mapping. -/
theorem invalid_line_warns_witness :
    processLine (([], []) : ParseSt) 2 ("bad line".toList) = ([], [(2, "bad line")]) ∧
    (parseLinesAux 1 ([], []) ["A=1".toList, "bad line".toList, "B=2".toList]).1 =
      (parseLinesAux 1 ([], []) ["A=1".toList, "B=2".toList]).1 := by
  constructor
  · have h := invalid_line_warns.1 ([], []) 2 ("bad line".toList) (by decide) (by decide)
      (by decide)
    rw [h]
    decide
  · exact invalid_line_warns.2 ["A=1".toList] ["B=2".toList] ("bad line".toList) (by decide)
      (by decide) (by decide)

/-- Witness for `duplicate_keys_last_wins`: with `A` on lines 1 and 2,
the mapping holds the value from line 2. -/
theorem duplicate_keys_witness :
    dictGet "A" (parseLinesAux 1 ([], []) ["A=1".toList, "A=2".toList, "B=3".toList]).1 =
      some "2" :=
  duplicate_keys_last_wins.1 ["A=1".toList] ["B=3".toList] ("A=2".toList) "A" "2"
    (by decide) (by decide)

/-- Witness for `empty_key_accepted`: the line `=hello` stores the entry
with the empty key. -/
theorem empty_key_witness :
    processLine (([], []) : ParseSt) 1 ("=hello".toList) = ([("", "hello")], []) := by
  have h := empty_key_accepted.1 ([], []) 1 ("=hello".toList) (by decide)
  rw [h]
  decide

/-- Witness for `safe_filename_always_safe`: the absent input still
yields a non-empty filename fragment. -/
theorem safe_filename_always_safe_witness :
    0 < (safe_filename none 120).length :=
  (safe_filename_always_safe none 120).1
